import Mathlib

/-!
# Verification of the portfolio site's gear generator and instanced animator

Shallow embedding of the two algorithmic components of the repository:

* the procedural gear profile built by `TechnicalGear` in `src/App.jsx`
  (alternating outer/inner radius vertices on a `THREE.Shape` path);
* the instanced background animator `BackgroundInstances` (wobble variant in
  the unnamed parts, sliding variant in `src/App.jsx`): per-frame position and
  rotation formulas, partitioning of descriptors by geometry class, per-frame
  buffer writes and dirty marking.

Machine reals are modelled by `ℝ`; the JavaScript remainder operator `%`
(round-toward-zero) is modelled explicitly, and a `JSNum` type with a `nan`
element models NaN propagation through the arithmetic actually used.
-/

namespace Portfolio

/-! ## Gear profile generator (`TechnicalGear`, src/App.jsx)

The component receives `size` and `teeth`; the radii are derived from `size`:
`outerRadius = size`, `innerRadius = size * 0.85`, `holeRadius = size * 0.4`.
-/

def gearOuterRadius (size : ℝ) : ℝ := size

def gearInnerRadius (size : ℝ) : ℝ := size * 0.85

def gearHoleRadius (size : ℝ) : ℝ := size * 0.4

/-- `angleStep = (Math.PI * 2) / (numTeeth * 2)` -/
noncomputable def gearAngleStep (teeth : ℕ) : ℝ := (Real.pi * 2) / ((teeth : ℝ) * 2)

/-- One boundary vertex of the gear profile, exactly as the loop body computes
it: `angle = i * angleStep`, `r = i % 2 === 0 ? outerRadius : innerRadius`,
`x = Math.cos(angle) * r`, `y = Math.sin(angle) * r`. -/
noncomputable def gearVertex (size : ℝ) (teeth i : ℕ) : ℝ × ℝ :=
  let angle : ℝ := (i : ℝ) * gearAngleStep teeth
  let r : ℝ := if i % 2 = 0 then gearOuterRadius size else gearInnerRadius size
  (Real.cos angle * r, Real.sin angle * r)

/-- A drawing command issued on the `THREE.Shape` path. -/
inductive PathCmd where
  | moveTo (p : ℝ × ℝ)
  | lineTo (p : ℝ × ℝ)

/-- The sequence of path commands issued by the loop
`for (let i = 0; i < numTeeth * 2; i++) { ... if (i === 0) shape.moveTo(x, y);
else shape.lineTo(x, y); }`. -/
noncomputable def gearShapePath (size : ℝ) (teeth : ℕ) : List PathCmd :=
  (List.range (teeth * 2)).map fun i =>
    if i = 0 then PathCmd.moveTo (gearVertex size teeth i)
    else PathCmd.lineTo (gearVertex size teeth i)

/-- Spec-side statement of the vertex formula, following the spec's words:
"vertex = (radius·cos(i·angleStep), radius·sin(i·angleStep))" with the radius
alternating between `outerRadius` (even i) and `innerRadius` (odd i). -/
noncomputable def gearVertexSpec (size : ℝ) (teeth i : ℕ) : ℝ × ℝ :=
  let radius : ℝ := if i % 2 = 0 then gearOuterRadius size else gearInnerRadius size
  (radius * Real.cos ((i : ℝ) * gearAngleStep teeth),
   radius * Real.sin ((i : ℝ) * gearAngleStep teeth))

/-! ## Instance descriptors (`BackgroundInstances`, unnamed parts)

`instanceData` entries hold a `position` triple and a `geometryIndex` sampled
as `Math.floor(Math.random() * geometries.length)`. -/

structure InstanceData where
  posX : ℝ
  posY : ℝ
  posZ : ℝ
  geometryIndex : ℕ

/-- The five geometry classes of `BackgroundInstances`. -/
inductive GeoKind where
  | box
  | cylinder
  | cone
  | dodecahedron
  | torus
deriving DecidableEq

def geometries : List GeoKind :=
  [GeoKind.box, GeoKind.cylinder, GeoKind.cone, GeoKind.dodecahedron, GeoKind.torus]

def numGeometries : ℕ := geometries.length

/-- `geometryIndex: Math.floor(Math.random() * geometries.length)` applied to a
sample `r` of `Math.random()`. -/
noncomputable def sampleGeometryIndex (r : ℝ) : ℕ := (⌊r * (numGeometries : ℝ)⌋).toNat

/-- `const timeOffset = data.position[0] * 0.1;` -/
def timeOffset (d : InstanceData) : ℝ := d.posX * 0.1

/-- `const x = data.position[0] + Math.sin(t * 0.5 + timeOffset) * 0.1;` -/
noncomputable def wobbleX (d : InstanceData) (t : ℝ) : ℝ :=
  d.posX + Real.sin (t * 0.5 + timeOffset d) * 0.1

/-- `const y = data.position[1] + Math.cos(t * 0.5 + timeOffset) * 0.1;` -/
noncomputable def wobbleY (d : InstanceData) (t : ℝ) : ℝ :=
  d.posY + Real.cos (t * 0.5 + timeOffset d) * 0.1

/-- The per-frame position written for an instance (wobble variant):
`dummy.position.set(x, y, z)` with `z = data.position[2]`. -/
noncomputable def framePosition (d : InstanceData) (t : ℝ) : ℝ × ℝ × ℝ :=
  (wobbleX d t, wobbleY d t, d.posZ)

/-- `dummy.rotation.x = Math.sin(t * 0.3 + timeOffset);`
`dummy.rotation.y = Math.cos(t * 0.4 + timeOffset);` -/
noncomputable def frameRotation (d : InstanceData) (t : ℝ) : ℝ × ℝ :=
  (Real.sin (t * 0.3 + timeOffset d), Real.cos (t * 0.4 + timeOffset d))

/-! Spec-side formulation of the same formulas (§4.2 of the spec), written with
the spec's named quantities `phaseOffset` and `wobbleAmplitude`. -/

def wobbleAmplitude : ℝ := 0.1

/-- The instance's phase offset; in the code this is the quantity `timeOffset`
computed from `basePosition.x`. -/
def phaseOffset (d : InstanceData) : ℝ := d.posX * 0.1

noncomputable def specPositionX (d : InstanceData) (t : ℝ) : ℝ :=
  d.posX + Real.sin (t * 0.5 + phaseOffset d) * wobbleAmplitude

noncomputable def specPositionY (d : InstanceData) (t : ℝ) : ℝ :=
  d.posY + Real.cos (t * 0.5 + phaseOffset d) * wobbleAmplitude

noncomputable def specRotationX (d : InstanceData) (t : ℝ) : ℝ :=
  Real.sin (t * 0.3 + phaseOffset d)

noncomputable def specRotationY (d : InstanceData) (t : ℝ) : ℝ :=
  Real.cos (t * 0.4 + phaseOffset d)

/-! ## Partitioning by geometry class

`const instanceGroups = Array(geometries.length).fill(null).map(() => []);`
`instanceData.forEach(data => instanceGroups[data.geometryIndex].push(data));`

The buffer for class `k` is allocated with capacity
`instanceData.filter(d => d.geometryIndex === index).length`. -/

def pushStep (gs : ℕ → List InstanceData) (d : InstanceData) : ℕ → List InstanceData :=
  fun k => if k = d.geometryIndex then gs k ++ [d] else gs k

/-- The contents of `instanceGroups[k]` after the `forEach` push loop. -/
def buildGroups (ds : List InstanceData) : ℕ → List InstanceData :=
  ds.foldl pushStep (fun _ => [])

/-- Capacity passed to the `instancedMesh` for class `k`:
`args={[geo, null, instanceData.filter(d => d.geometryIndex === index).length]}`. -/
def instancedCapacity (ds : List InstanceData) (k : ℕ) : ℕ :=
  (ds.filter fun d => d.geometryIndex == k).length

/-! ## Per-frame buffer writes and dirty marking

`meshRefs.current[geoIndex]` may be unset (`null`) before mount; the update
then returns early for that class.  Otherwise each instance of the group is
written with `setMatrixAt(i, ...)` and afterwards, if `instanceMatrix` is
present, `instanceMatrix.needsUpdate = true` is set once for the class. -/

structure InstancedBuffer where
  capacity : ℕ
  hasInstanceMatrix : Bool

inductive FrameEvent where
  | write (geoIndex slot : ℕ)
  | markDirty (geoIndex : ℕ)
deriving DecidableEq

def eventGeoIndex : FrameEvent → ℕ
  | FrameEvent.write k _ => k
  | FrameEvent.markDirty k => k

/-- The events the frame callback performs for one geometry class: nothing if
the mesh ref is unset, otherwise one `setMatrixAt` per group member followed by
the single `needsUpdate` marking (guarded by `instanceMatrix`). -/
def classFrameEvents (buf : Option InstancedBuffer) (group : List InstanceData)
    (k : ℕ) : List FrameEvent :=
  match buf with
  | none => []
  | some b =>
    ((List.range group.length).map fun i => FrameEvent.write k i) ++
      (if b.hasInstanceMatrix then [FrameEvent.markDirty k] else [])

/-- The full event trace of one `useFrame` callback invocation. -/
def frameEvents (bufs : ℕ → Option InstancedBuffer) (ds : List InstanceData) :
    List FrameEvent :=
  (((List.range numGeometries).map fun k =>
    classFrameEvents (bufs k) (buildGroups ds k) k)).flatten

/-! ## Sliding variant (`useFrame` in src/App.jsx)

JavaScript `%` truncates toward zero; `jsRem` models `a % n` for `n ≠ 0`. -/

noncomputable def jsTrunc (x : ℝ) : ℤ := if 0 ≤ x then ⌊x⌋ else ⌈x⌉

noncomputable def jsRem (a n : ℝ) : ℝ := a - n * (jsTrunc (a / n) : ℝ)

/-- `let x = initialX + Math.sin(t * slideSpeed * 0.5) * 5;` -/
noncomputable def slideX (posX speed t : ℝ) : ℝ :=
  posX + Real.sin (t * speed * 0.5) * 5

/-- `let y = initialY + Math.cos(t * slideSpeed * 0.7) * 5;` -/
noncomputable def slideY (posY speed t : ℝ) : ℝ :=
  posY + Real.cos (t * speed * 0.7) * 5

/-- `let z = (initialZ + t * slideSpeed) % 40; if (z > 20) z -= 40;` -/
noncomputable def slideZ (posZ speed t : ℝ) : ℝ :=
  let z := jsRem (posZ + t * speed) 40
  if z > 20 then z - 40 else z

/-! ## JavaScript number model with NaN propagation -/

inductive JSNum where
  | num (x : ℝ)
  | nan

noncomputable def jadd : JSNum → JSNum → JSNum
  | JSNum.num a, JSNum.num b => JSNum.num (a + b)
  | _, _ => JSNum.nan

noncomputable def jmul : JSNum → JSNum → JSNum
  | JSNum.num a, JSNum.num b => JSNum.num (a * b)
  | _, _ => JSNum.nan

noncomputable def jsub : JSNum → JSNum → JSNum
  | JSNum.num a, JSNum.num b => JSNum.num (a - b)
  | _, _ => JSNum.nan

noncomputable def jsin : JSNum → JSNum
  | JSNum.num a => JSNum.num (Real.sin a)
  | JSNum.nan => JSNum.nan

noncomputable def jcos : JSNum → JSNum
  | JSNum.num a => JSNum.num (Real.cos a)
  | JSNum.nan => JSNum.nan

/-- JavaScript `%`: NaN when the divisor is `0` (or either operand is NaN). -/
noncomputable def jrem : JSNum → JSNum → JSNum
  | JSNum.num a, JSNum.num n => if n = 0 then JSNum.nan else JSNum.num (jsRem a n)
  | _, _ => JSNum.nan

/-- Wobble x computation on JS numbers. -/
noncomputable def jWobbleX (posX t : JSNum) : JSNum :=
  jadd posX (jmul (jsin (jadd (jmul t (JSNum.num 0.5)) (jmul posX (JSNum.num 0.1))))
    (JSNum.num 0.1))

/-- Wobble y computation on JS numbers. -/
noncomputable def jWobbleY (posY posX t : JSNum) : JSNum :=
  jadd posY (jmul (jcos (jadd (jmul t (JSNum.num 0.5)) (jmul posX (JSNum.num 0.1))))
    (JSNum.num 0.1))

noncomputable def jRotX (posX t : JSNum) : JSNum :=
  jsin (jadd (jmul t (JSNum.num 0.3)) (jmul posX (JSNum.num 0.1)))

noncomputable def jRotY (posX t : JSNum) : JSNum :=
  jcos (jadd (jmul t (JSNum.num 0.4)) (jmul posX (JSNum.num 0.1)))

noncomputable def jSlideX (posX speed t : JSNum) : JSNum :=
  jadd posX (jmul (jsin (jmul (jmul t speed) (JSNum.num 0.5))) (JSNum.num 5))

noncomputable def jSlideY (posY speed t : JSNum) : JSNum :=
  jadd posY (jmul (jcos (jmul (jmul t speed) (JSNum.num 0.7))) (JSNum.num 5))

/-- Slide z on JS numbers: a NaN remainder compares false with `20`, so the
wrap branch is not taken and NaN propagates. -/
noncomputable def jSlideZ (posZ speed t : JSNum) : JSNum :=
  match jrem (jadd posZ (jmul t speed)) (JSNum.num 40) with
  | JSNum.num r => JSNum.num (if r > 20 then r - 40 else r)
  | JSNum.nan => JSNum.nan

/-! Concrete sample data used by witness theorems. -/

def sampleDescriptors : List InstanceData :=
  [InstanceData.mk 0 0 0 0, InstanceData.mk 1 1 1 2, InstanceData.mk 2 2 2 2]

def sampleBufs : ℕ → Option InstancedBuffer :=
  fun j => if j = 0 then some (InstancedBuffer.mk 1 true) else none

/-! ## Theorems -/

/-- Claim C2: for toothCount ≥ 3 the profile has exactly 2·toothCount boundary
vertices; vertex i lies at angle i·angleStep at the alternating radius
(outer for even i, inner for odd i) as the spec's formula states; the path is
one `moveTo` followed by straight `lineTo` edges; and the vertex sequence
closes up (the vertex after the last one coincides with the first). -/
theorem gear_profile_vertexCount (size : ℝ) (teeth : ℕ) (h : 3 ≤ teeth) :
    (gearShapePath size teeth).length = 2 * teeth ∧
    (∀ i, i < 2 * teeth → gearVertex size teeth i = gearVertexSpec size teeth i) ∧
    (∀ i, i < 2 * teeth →
      (gearShapePath size teeth)[i]? =
        some (if i = 0 then PathCmd.moveTo (gearVertex size teeth i)
              else PathCmd.lineTo (gearVertex size teeth i))) ∧
    gearVertex size teeth (2 * teeth) = gearVertex size teeth 0 := by
  refine ⟨by simp [gearShapePath, Nat.mul_comm], ?_, ?_, ?_⟩
  · intro i _
    refine Prod.ext ?_ ?_ <;> simp [gearVertex, gearVertexSpec, mul_comm]
  · intro i hi
    have hi2 : i < teeth * 2 := by omega
    simp [gearShapePath, hi2]
  · have ht : (teeth : ℝ) ≠ 0 := Nat.cast_ne_zero.mpr (by omega)
    have hang : 2 * (teeth : ℝ) * gearAngleStep teeth = 2 * Real.pi := by
      unfold gearAngleStep
      field_simp
      ring
    simp [gearVertex, hang, Real.cos_two_pi, Real.sin_two_pi, Nat.mul_mod_right]

/-- Witness for C2 at the spec's scenario (size 2, 16 teeth): 32 vertices. -/
theorem gear_profile_vertexCount_witness :
    3 ≤ 16 ∧ (gearShapePath 2 16).length = 32 :=
  ⟨by norm_num, by simpa using (gear_profile_vertexCount 2 16 (by norm_num)).1⟩

/-- Claim C1 counterexample: toothCount 2 is invalid per the claim (< 3), yet the
code happily builds a (4-vertex) profile — construction does not fail and
geometry is produced. -/
theorem gear_invalid_toothCount_still_builds :
    2 < 3 ∧ (gearShapePath 1 2).length = 4 ∧ gearShapePath 1 2 ≠ [] := by
  have hlen : (gearShapePath 1 2).length = 4 := by simp [gearShapePath]
  refine ⟨by norm_num, hlen, ?_⟩
  intro hnil
  rw [hnil] at hlen
  simp at hlen

/-- Claim C1 amended: `TechnicalGear` performs no parameter validation at all; for
any tooth count (including values below 3) it produces a profile of
2·toothCount vertices, and invalid radius orderings cannot arise because the
radii are derived from `size` (so for positive size,
holeRadius < innerRadius < outerRadius always holds). -/
theorem gear_no_validation (size : ℝ) (teeth : ℕ) (h : 0 < size) :
    (gearShapePath size teeth).length = 2 * teeth ∧
    gearHoleRadius size < gearInnerRadius size ∧
    gearInnerRadius size < gearOuterRadius size := by
  refine ⟨by simp [gearShapePath, Nat.mul_comm], ?_, ?_⟩
  · unfold gearHoleRadius gearInnerRadius
    nlinarith
  · unfold gearInnerRadius gearOuterRadius
    nlinarith

/-- Witness for the amended C1 at size 1, toothCount 2. -/
theorem gear_no_validation_witness :
    (0 : ℝ) < 1 ∧
    ((gearShapePath 1 2).length = 2 * 2 ∧
      gearHoleRadius 1 < gearInnerRadius 1 ∧
      gearInnerRadius 1 < gearOuterRadius 1) :=
  ⟨by norm_num, gear_no_validation 1 2 (by norm_num)⟩

/-- Sampling as the code does (`Math.floor(Math.random() * 5)`) always yields
an in-range class index, so the partition hypotheses are realizable. -/
theorem sampleGeometryIndex_lt (r : ℝ) (_h0 : 0 ≤ r) (h1 : r < 1) :
    sampleGeometryIndex r < numGeometries := by
  have h5 : numGeometries = 5 := rfl
  unfold sampleGeometryIndex
  rw [h5]
  have hlt : ⌊r * ((5 : ℕ) : ℝ)⌋ < (5 : ℤ) := by
    apply Int.floor_lt.mpr
    push_cast
    nlinarith
  omega

/-- The push loop groups descriptors exactly as filtering by class does. -/
theorem buildGroups_apply (ds : List InstanceData) (k : ℕ) :
    buildGroups ds k = ds.filter fun d => d.geometryIndex == k := by
  have key : ∀ (l : List InstanceData) (g : ℕ → List InstanceData),
      (l.foldl pushStep g) k = g k ++ l.filter (fun d => d.geometryIndex == k) := by
    intro l
    induction l with
    | nil => intro g; simp
    | cons d l ih =>
      intro g
      rw [List.foldl_cons, ih]
      by_cases hk : d.geometryIndex = k
      · simp [pushStep, hk, List.filter_cons]
      · have hk2 : ¬(k = d.geometryIndex) := fun hc => hk hc.symm
        simp [pushStep, List.filter_cons, hk, hk2]
  simpa [buildGroups] using key ds (fun _ => [])

/-- Summing the per-class buffer capacities over the geometry classes recovers
the total descriptor count, provided every class index is in range. -/
theorem sum_instancedCapacity :
    ∀ ds : List InstanceData, (∀ d ∈ ds, d.geometryIndex < numGeometries) →
      (∑ k ∈ Finset.range numGeometries, instancedCapacity ds k) = ds.length := by
  intro ds
  induction ds with
  | nil => intro _; simp [instancedCapacity]
  | cons d l ih =>
    intro h
    have hd : d.geometryIndex < numGeometries := h d (List.mem_cons_self _ _)
    have hl := ih fun x hx => h x (List.mem_cons_of_mem _ hx)
    calc
      ∑ k ∈ Finset.range numGeometries, instancedCapacity (d :: l) k
          = ∑ k ∈ Finset.range numGeometries,
              ((if d.geometryIndex = k then 1 else 0) + instancedCapacity l k) := by
            refine Finset.sum_congr rfl fun k _ => ?_
            by_cases hdk : d.geometryIndex = k
            · simp [instancedCapacity, List.filter_cons, hdk, Nat.add_comm]
            · simp [instancedCapacity, List.filter_cons, hdk]
      _ = (∑ k ∈ Finset.range numGeometries, if d.geometryIndex = k then 1 else 0)
            + ∑ k ∈ Finset.range numGeometries, instancedCapacity l k :=
            Finset.sum_add_distrib
      _ = 1 + l.length := by
            rw [hl, Finset.sum_ite_eq, if_pos (Finset.mem_range.mpr hd)]
      _ = (d :: l).length := by simp [Nat.add_comm]

/-- Claim C3: for every geometry class, the number of descriptors the frame callback
groups into that class equals the capacity allocated for that class's
instanced buffer, and the class counts sum to the total instance count. -/
theorem instance_partition_counts (ds : List InstanceData)
    (h : ∀ d ∈ ds, d.geometryIndex < numGeometries) :
    (∀ k, (buildGroups ds k).length = instancedCapacity ds k) ∧
    (∑ k ∈ Finset.range numGeometries, instancedCapacity ds k) = ds.length :=
  ⟨fun k => by rw [buildGroups_apply]; rfl, sum_instancedCapacity ds h⟩

/-- Witness for C3 on a concrete descriptor list (classes 0, 2, 2). -/
theorem instance_partition_counts_witness :
    (∀ d ∈ sampleDescriptors, d.geometryIndex < numGeometries) ∧
    ((∀ k, (buildGroups sampleDescriptors k).length =
        instancedCapacity sampleDescriptors k) ∧
      (∑ k ∈ Finset.range numGeometries, instancedCapacity sampleDescriptors k) =
        sampleDescriptors.length) := by
  have h : ∀ d ∈ sampleDescriptors, d.geometryIndex < numGeometries := by
    simp [sampleDescriptors, numGeometries, geometries]
  exact ⟨h, instance_partition_counts sampleDescriptors h⟩

/-- Every event a class's update emits carries that class's index. -/
theorem eventGeoIndex_classFrameEvents (buf : Option InstancedBuffer)
    (g : List InstanceData) (k : ℕ) (e : FrameEvent)
    (he : e ∈ classFrameEvents buf g k) : eventGeoIndex e = k := by
  cases buf with
  | none => simp [classFrameEvents] at he
  | some b =>
    simp only [classFrameEvents, List.mem_append, List.mem_map, List.mem_range] at he
    rcases he with ⟨i, _, rfl⟩ | he
    · rfl
    · by_cases hb : b.hasInstanceMatrix
      · simp [hb] at he
        subst he
        rfl
      · simp [hb] at he

/-- Membership in the frame trace comes from exactly one class's update. -/
theorem mem_frameEvents (bufs : ℕ → Option InstancedBuffer) (ds : List InstanceData)
    (e : FrameEvent) :
    e ∈ frameEvents bufs ds ↔
      ∃ k, k < numGeometries ∧ e ∈ classFrameEvents (bufs k) (buildGroups ds k) k := by
  simp [frameEvents, List.mem_flatten]

/-- Claim C4: a class whose mesh ref is not yet set contributes no events to the
frame (the update is a no-op for it, not an error), and every instance write
that does happen targets an initialized buffer at a slot below its allocated
capacity. -/
theorem frame_update_skip_and_bounds (bufs : ℕ → Option InstancedBuffer)
    (ds : List InstanceData)
    (hcap : ∀ k b, bufs k = some b → b.capacity = instancedCapacity ds k) :
    (∀ k, bufs k = none → ∀ e ∈ frameEvents bufs ds, eventGeoIndex e ≠ k) ∧
    (∀ k i, FrameEvent.write k i ∈ frameEvents bufs ds →
      ∃ b, bufs k = some b ∧ i < b.capacity) := by
  constructor
  · intro k hk e he hcontra
    rcases (mem_frameEvents bufs ds e).1 he with ⟨j, _, hej⟩
    have hgeo := eventGeoIndex_classFrameEvents (bufs j) _ j e hej
    have hjk : j = k := by rw [← hgeo, hcontra]
    subst hjk
    rw [hk] at hej
    simp [classFrameEvents] at hej
  · intro k i hw
    rcases (mem_frameEvents bufs ds _).1 hw with ⟨j, _, hej⟩
    have hgeo := eventGeoIndex_classFrameEvents (bufs j) _ j _ hej
    have hjk : j = k := by simpa [eventGeoIndex] using hgeo.symm
    subst hjk
    cases hbuf : bufs j with
    | none => rw [hbuf] at hej; simp [classFrameEvents] at hej
    | some b =>
      refine ⟨b, rfl, ?_⟩
      rw [hbuf] at hej
      simp only [classFrameEvents, List.mem_append, List.mem_map, List.mem_range] at hej
      rcases hej with ⟨i2, hi2, heq⟩ | hej
      · have hii : i2 = i := by injection heq
        calc i < (buildGroups ds j).length := hii ▸ hi2
          _ = instancedCapacity ds j := by rw [buildGroups_apply]; rfl
          _ = b.capacity := (hcap j b hbuf).symm
      · by_cases hb : b.hasInstanceMatrix <;> simp [hb] at hej

/-- Witness for C4: one initialized class (class 0, capacity 1), the rest
uninitialized. -/
theorem frame_update_skip_and_bounds_witness :
    (∀ k b, sampleBufs k = some b → b.capacity = instancedCapacity sampleDescriptors k) ∧
    ((∀ k, sampleBufs k = none →
        ∀ e ∈ frameEvents sampleBufs sampleDescriptors, eventGeoIndex e ≠ k) ∧
      (∀ k i, FrameEvent.write k i ∈ frameEvents sampleBufs sampleDescriptors →
        ∃ b, sampleBufs k = some b ∧ i < b.capacity)) := by
  have hcap : ∀ k b, sampleBufs k = some b →
      b.capacity = instancedCapacity sampleDescriptors k := by
    intro k b hb
    by_cases hk : k = 0
    · subst hk
      simp [sampleBufs] at hb
      rw [← hb]
      rfl
    · simp [sampleBufs, hk] at hb
  exact ⟨hcap, frame_update_skip_and_bounds sampleBufs sampleDescriptors hcap⟩

/-- Filtering a class's events by another class's index yields nothing;
filtering by its own index keeps everything. -/
theorem filter_classFrameEvents (buf : Option InstancedBuffer)
    (g : List InstanceData) (j k : ℕ) :
    (classFrameEvents buf g j).filter (fun e => eventGeoIndex e == k) =
      if j = k then classFrameEvents buf g j else [] := by
  by_cases hjk : j = k
  · subst hjk
    rw [if_pos rfl]
    apply List.filter_eq_self.mpr
    intro e he
    simpa using eventGeoIndex_classFrameEvents buf g j e he
  · rw [if_neg hjk]
    apply List.filter_eq_nil_iff.mpr
    intro e he
    have hgeo := eventGeoIndex_classFrameEvents buf g j e he
    simp [hgeo, hjk]

/-- Flattening a range-indexed family that is empty away from one index. -/
theorem flatten_map_range_single {α : Type} (n k : ℕ) (f : ℕ → List α) (hk : k < n)
    (h : ∀ j, j ≠ k → f j = []) : ((List.range n).map f).flatten = f k := by
  induction n with
  | zero => omega
  | succ n ih =>
    rw [List.range_succ, List.map_append, List.flatten_append]
    by_cases hkn : k = n
    · subst hkn
      have hnil : ((List.range k).map f).flatten = [] := by
        apply List.flatten_eq_nil_iff.mpr
        intro l hl
        rcases List.mem_map.1 hl with ⟨j, hj, rfl⟩
        exact h j (by have := List.mem_range.1 hj; omega)
      simp [hnil]
    · have hk2 : k < n := by omega
      rw [ih hk2]
      have hfn : f n = [] := h n (by omega)
      simp [hfn]

/-- The class-`k` slice of the frame trace is exactly class `k`'s update. -/
theorem frameEvents_filter_class (bufs : ℕ → Option InstancedBuffer)
    (ds : List InstanceData) (k : ℕ) (hk : k < numGeometries) :
    (frameEvents bufs ds).filter (fun e => eventGeoIndex e == k) =
      classFrameEvents (bufs k) (buildGroups ds k) k := by
  rw [frameEvents, List.filter_flatten, List.map_map]
  rw [flatten_map_range_single numGeometries k _ hk]
  · simp [Function.comp, filter_classFrameEvents]
  · intro j hj
    simp [Function.comp, filter_classFrameEvents, hj]

/-- Claim C9: within one frame, the class-`k` slice of the event trace contains the
`needsUpdate` marking exactly once, and it comes after every instance write of
that class (it is the last class-`k` event). -/
theorem dirty_mark_once_per_class (bufs : ℕ → Option InstancedBuffer)
    (ds : List InstanceData) (k : ℕ) (b : InstancedBuffer)
    (hk : k < numGeometries) (hbuf : bufs k = some b)
    (hmat : b.hasInstanceMatrix = true) :
    ((frameEvents bufs ds).filter fun e => eventGeoIndex e == k).count
        (FrameEvent.markDirty k) = 1 ∧
    ((frameEvents bufs ds).filter fun e => eventGeoIndex e == k).getLast? =
      some (FrameEvent.markDirty k) := by
  have hclass : classFrameEvents (bufs k) (buildGroups ds k) k =
      ((List.range (buildGroups ds k).length).map fun i => FrameEvent.write k i) ++
        [FrameEvent.markDirty k] := by
    rw [hbuf]
    simp [classFrameEvents, hmat]
  rw [frameEvents_filter_class bufs ds k hk, hclass]
  constructor
  · rw [List.count_append]
    have h0 : (((List.range (buildGroups ds k).length).map
        fun i => FrameEvent.write k i)).count (FrameEvent.markDirty k) = 0 := by
      apply List.count_eq_zero.mpr
      simp
    rw [h0, List.count_singleton_self]
  · exact List.getLast?_concat _

/-- Witness for C9 at the sample configuration (class 0 initialized with
`instanceMatrix` present). -/
theorem dirty_mark_once_per_class_witness :
    (0 < numGeometries ∧ sampleBufs 0 = some (InstancedBuffer.mk 1 true) ∧
      (InstancedBuffer.mk 1 true).hasInstanceMatrix = true) ∧
    (((frameEvents sampleBufs sampleDescriptors).filter
        fun e => eventGeoIndex e == 0).count (FrameEvent.markDirty 0) = 1 ∧
      ((frameEvents sampleBufs sampleDescriptors).filter
        fun e => eventGeoIndex e == 0).getLast? = some (FrameEvent.markDirty 0)) :=
  ⟨⟨by norm_num [numGeometries, geometries], rfl, rfl⟩,
    dirty_mark_once_per_class sampleBufs sampleDescriptors 0 (InstancedBuffer.mk 1 true)
      (by norm_num [numGeometries, geometries]) rfl rfl⟩

/-- Claim C5: the per-frame transform equals the spec's formulas, with the instance's
phase offset and the wobble amplitude 0.1. -/
theorem frame_transform_formula (d : InstanceData) (t : ℝ) :
    framePosition d t = (specPositionX d t, specPositionY d t, d.posZ) ∧
    frameRotation d t = (specRotationX d t, specRotationY d t) :=
  ⟨rfl, rfl⟩

/-- Unfolding of the `let`-bound remainder in `slideZ`. -/
theorem slideZ_eq (posZ speed t : ℝ) :
    slideZ posZ speed t =
      if jsRem (posZ + t * speed) 40 > 20 then jsRem (posZ + t * speed) 40 - 40
      else jsRem (posZ + t * speed) 40 := rfl

/-- Claim C6: in the sliding variant the computed z differs from
`basePosition.z + t·speed` by an integer multiple of the range length 40
(it is that quantity wrapped modulo the range), and it stays inside the
bounded volume `(-20, 20]` — it never grows with `t`. -/
theorem slide_z_wrapped_bounded (posZ speed t : ℝ)
    (hz : -20 < posZ) (hs : 0 ≤ speed) (ht : 0 ≤ t) :
    (∃ m : ℤ, slideZ posZ speed t = (posZ + t * speed) - 40 * m) ∧
    -20 < slideZ posZ speed t ∧ slideZ posZ speed t ≤ 20 := by
  have hts : 0 ≤ t * speed := mul_nonneg ht hs
  rw [slideZ_eq]
  set a := posZ + t * speed with ha
  have ha20 : -20 < a := by rw [ha]; linarith
  by_cases h0 : 0 ≤ a
  · have htr : jsTrunc (a / 40) = ⌊a / 40⌋ := by
      unfold jsTrunc
      rw [if_pos (by positivity)]
    have hrem0 : jsRem a 40 = a - 40 * (⌊a / 40⌋ : ℝ) := by
      unfold jsRem
      rw [htr]
    have hfr : jsRem a 40 = 40 * Int.fract (a / 40) := by
      rw [hrem0, Int.fract]
      field_simp
    have h1 : 0 ≤ jsRem a 40 := by
      rw [hfr]; nlinarith [Int.fract_nonneg (a / 40)]
    have h2 : jsRem a 40 < 40 := by
      rw [hfr]; nlinarith [Int.fract_lt_one (a / 40)]
    by_cases hgt : jsRem a 40 > 20
    · rw [if_pos hgt]
      refine ⟨⟨⌊a / 40⌋ + 1, ?_⟩, by linarith, by linarith⟩
      rw [hrem0]
      push_cast
      ring
    · rw [if_neg hgt]
      exact ⟨⟨⌊a / 40⌋, by rw [hrem0]⟩, by linarith, by linarith⟩
  · push_neg at h0
    have hdiv : a / 40 < 0 := div_neg_of_neg_of_pos h0 (by norm_num)
    have htr : jsTrunc (a / 40) = ⌈a / 40⌉ := by
      unfold jsTrunc
      rw [if_neg (not_le.mpr hdiv)]
    have h40 : (-1 : ℝ) < a / 40 := by
      rw [lt_div_iff₀ (by norm_num : (0 : ℝ) < 40)]
      linarith
    have hceil : ⌈a / 40⌉ = 0 := by
      rw [Int.ceil_eq_zero_iff]
      exact Set.mem_Ioc.mpr ⟨h40, hdiv.le⟩
    have hrem0 : jsRem a 40 = a := by
      unfold jsRem
      rw [htr, hceil]
      push_cast
      ring
    rw [hrem0, if_neg (by linarith : ¬a > 20)]
    exact ⟨⟨0, by push_cast; ring⟩, ha20, by linarith⟩

/-- Witness for C6 at posZ = 0, speed = 0, t = 0. -/
theorem slide_z_wrapped_bounded_witness :
    ((-20 : ℝ) < 0 ∧ (0 : ℝ) ≤ 0 ∧ (0 : ℝ) ≤ 0) ∧
    ((∃ m : ℤ, slideZ 0 0 0 = ((0 : ℝ) + 0 * 0) - 40 * m) ∧
      -20 < slideZ 0 0 0 ∧ slideZ 0 0 0 ≤ 20) :=
  ⟨⟨by norm_num, le_refl 0, le_refl 0⟩,
    slide_z_wrapped_bounded 0 0 0 (by norm_num) (le_refl 0) (le_refl 0)⟩

/-- Claim C7: the wobble position is periodic in `t` with period 4π (the 0.5
frequency turns the shift 4π into a full 2π phase). -/
theorem frame_position_periodic (d : InstanceData) (t : ℝ) :
    framePosition d (t + 4 * Real.pi) = framePosition d t := by
  unfold framePosition wobbleX wobbleY
  have hx : (t + 4 * Real.pi) * 0.5 + timeOffset d =
      (t * 0.5 + timeOffset d) + 2 * Real.pi := by ring
  rw [hx, Real.sin_add_two_pi, Real.cos_add_two_pi]

/-- Claim C8: on finite (non-NaN) inputs every per-frame coordinate computation
yields a finite JS number — the value of the corresponding real formula; no
NaN arises anywhere (the one NaN source, `% 0`, cannot trigger since the
divisor is the constant 40). -/
theorem frame_computation_no_nan (d : InstanceData) (speed t : ℝ) :
    jWobbleX (JSNum.num d.posX) (JSNum.num t) = JSNum.num (wobbleX d t) ∧
    jWobbleY (JSNum.num d.posY) (JSNum.num d.posX) (JSNum.num t) =
      JSNum.num (wobbleY d t) ∧
    jRotX (JSNum.num d.posX) (JSNum.num t) = JSNum.num (frameRotation d t).1 ∧
    jRotY (JSNum.num d.posX) (JSNum.num t) = JSNum.num (frameRotation d t).2 ∧
    jSlideX (JSNum.num d.posX) (JSNum.num speed) (JSNum.num t) =
      JSNum.num (slideX d.posX speed t) ∧
    jSlideY (JSNum.num d.posY) (JSNum.num speed) (JSNum.num t) =
      JSNum.num (slideY d.posY speed t) ∧
    jSlideZ (JSNum.num d.posZ) (JSNum.num speed) (JSNum.num t) =
      JSNum.num (slideZ d.posZ speed t) := by
  refine ⟨rfl, rfl, rfl, rfl, rfl, rfl, ?_⟩
  simp only [jSlideZ, jadd, jmul, jrem]
  rw [if_neg (by norm_num : ¬(40 : ℝ) = 0)]
  rfl

/-- Claim C10: the phase offset is derived from `basePosition.x` (times 0.1), so two
instances sharing `basePosition.x` get identical rotations and identical
wobble displacements at every time, whatever their remaining fields. -/
theorem phase_from_px_noninterference (d1 d2 : InstanceData) (t : ℝ)
    (hpx : d1.posX = d2.posX) :
    phaseOffset d1 = d1.posX * 0.1 ∧
    frameRotation d1 t = frameRotation d2 t ∧
    wobbleX d1 t - d1.posX = wobbleX d2 t - d2.posX ∧
    wobbleY d1 t - d1.posY = wobbleY d2 t - d2.posY := by
  refine ⟨rfl, ?_, ?_, ?_⟩ <;> simp [frameRotation, wobbleX, wobbleY, timeOffset, hpx]

/-- Witness for C10: two descriptors equal only in `basePosition.x`. -/
theorem phase_from_px_noninterference_witness :
    (InstanceData.mk 1 2 3 0).posX = (InstanceData.mk 1 5 7 4).posX ∧
    (phaseOffset (InstanceData.mk 1 2 3 0) = (InstanceData.mk 1 2 3 0).posX * 0.1 ∧
      frameRotation (InstanceData.mk 1 2 3 0) 0 =
        frameRotation (InstanceData.mk 1 5 7 4) 0 ∧
      wobbleX (InstanceData.mk 1 2 3 0) 0 - (InstanceData.mk 1 2 3 0).posX =
        wobbleX (InstanceData.mk 1 5 7 4) 0 - (InstanceData.mk 1 5 7 4).posX ∧
      wobbleY (InstanceData.mk 1 2 3 0) 0 - (InstanceData.mk 1 2 3 0).posY =
        wobbleY (InstanceData.mk 1 5 7 4) 0 - (InstanceData.mk 1 5 7 4).posY) :=
  ⟨rfl, phase_from_px_noninterference _ _ 0 rfl⟩

end Portfolio
